import Mathlib

/-!
Verification development for the diff-parsing core of the `reviewer`
repository (`src/pr_agent/diff_parser.py`).

The Python module `diff_parser.py` builds its `DiffParser` on top of the
third-party `unidiff.PatchSet` library, whose sources are not part of the
repository.  Following the specification (sections 3, 4.1 and 6), the
parsing layer (`PatchSet`, `PatchedFile`, `Hunk`, `Line`) is modelled here
from the spec; the query layer (`DiffParser` and its methods, `LineChange`,
`FileAnalysis`) is embedded directly from the Python source.
-/

/-- Modelled from the spec (section 3, DiffLine): change kind of one physical
line of a hunk: added, removed or context. -/
inductive LineType
  | added
  | removed
  | context
  deriving DecidableEq, Repr

/-- Modelled from the spec (section 3, DiffLine) and the `unidiff` line
objects consumed by `diff_parser.py` (not part of the repository sources):
one physical line inside a hunk, with its content (marker character
stripped), change kind, and nullable source/target line numbers. -/
structure DiffLine where
  line_type : LineType
  value : String
  source_line_no : Option Nat
  target_line_no : Option Nat
  deriving DecidableEq, Repr

/-- Mirrors `line.is_added` of the `unidiff` line object. -/
def DiffLine.is_added (l : DiffLine) : Bool :=
  match l.line_type with
  | LineType.added => true
  | _ => false

/-- Mirrors `line.is_removed` of the `unidiff` line object. -/
def DiffLine.is_removed (l : DiffLine) : Bool :=
  match l.line_type with
  | LineType.removed => true
  | _ => false

/-- Modelled from the spec (section 3, Hunk): a contiguous run of DiffLines
sharing one `@@` header region, with the starting source and target line
numbers taken from the header (0 for a malformed header). -/
structure Hunk where
  source_start : Nat
  target_start : Nat
  lines : List DiffLine
  deriving DecidableEq, Repr

/-- Modelled from the spec (sections 3 and 4.1) and the `unidiff`
`PatchedFile` object consumed by `diff_parser.py`: one per-file section of
the diff, with old/new path (a/ and b/ prefixes stripped), rename flag and
the ordered hunks. -/
structure PatchedFile where
  source_file : String
  target_file : String
  is_rename : Bool
  hunks : List Hunk
  deriving DecidableEq, Repr

/-- The diff tool null-device sentinel used for new and deleted files
(spec section 4.1). -/
def devNull : String := "/dev/null"

/-- Modelled from the spec (section 3, FileAnalysis "file path (post-change
path)"): the current path of the file, falling back to the old path when the
new path is the null device. -/
def PatchedFile.path (pf : PatchedFile) : String :=
  if pf.target_file = devNull then pf.source_file else pf.target_file

/-- Modelled from the spec (section 4.1): a file is new when the old path is
the null-device sentinel. -/
def PatchedFile.is_added_file (pf : PatchedFile) : Bool :=
  pf.source_file == devNull

/-- Modelled from the spec (section 4.1): a file is deleted when the new path
is the null-device sentinel. -/
def PatchedFile.is_removed_file (pf : PatchedFile) : Bool :=
  pf.target_file == devNull

/-- All lines of a file section, hunks concatenated in order (the iteration
`for hunk in patched_file: for line in hunk` of the Python source). -/
def PatchedFile.allLines (pf : PatchedFile) : List DiffLine :=
  (pf.hunks.map Hunk.lines).flatten

/-- Count of added lines of one hunk (`hunk.added` of `unidiff`, per spec
section 4.1: "added lines increment ... the additions tally"). -/
def Hunk.added (h : Hunk) : Nat :=
  (h.lines.filter DiffLine.is_added).length

/-- Count of removed lines of one hunk (`hunk.removed` of `unidiff`). -/
def Hunk.removed (h : Hunk) : Nat :=
  (h.lines.filter DiffLine.is_removed).length

/-- Mirrors `patched_file.added` of `unidiff`: total added lines. -/
def PatchedFile.added (pf : PatchedFile) : Nat :=
  (pf.hunks.map Hunk.added).sum

/-- Mirrors `patched_file.removed` of `unidiff`: total removed lines. -/
def PatchedFile.removed (pf : PatchedFile) : Nat :=
  (pf.hunks.map Hunk.removed).sum

/-! ### The text-level diff reader, modelled from the spec (section 4.1) -/

/-- Boolean prefix test on character lists. -/
def listPref : List Char → List Char → Bool
  | [], _ => true
  | _ :: _, [] => false
  | p :: ps, c :: cs => p == c && listPref ps cs

/-- Split a character list into lines at newline characters (the per-line
iteration of the text reader). -/
def splitNL (acc : List Char) : List Char → List (List Char)
  | [] => [acc.reverse]
  | c :: cs => if c = '\n' then acc.reverse :: splitNL [] cs else splitNL (c :: acc) cs

/-- Numeric value of a decimal digit character. -/
def digitVal (c : Char) : Nat := c.toNat - 48

/-- Read a nonempty run of decimal digits; none if the list does not start
with a digit. -/
def parseDigits (cs : List Char) : Option (Nat × List Char) :=
  let ds := cs.takeWhile Char.isDigit
  if ds.isEmpty then none
  else some (ds.foldl (fun n c => n * 10 + digitVal c) 0, cs.dropWhile Char.isDigit)

/-- Read an optional `,len` field of a hunk header; a missing length
defaults to 1 as in unified-diff syntax. -/
def parseOptLen : List Char → Option (Nat × List Char)
  | ',' :: cs => parseDigits cs
  | cs => some (1, cs)

/-- Modelled from the spec (section 6): reads a hunk header
`@@ -srcStart,srcLen +dstStart,dstLen @@`, returning
(srcStart, srcLen, dstStart, dstLen), or none when the header is malformed
or a line-count field is unparseable. -/
def parseHunkHeader (cs : List Char) : Option (Nat × Nat × Nat × Nat) :=
  match cs with
  | '@' :: '@' :: ' ' :: '-' :: r0 =>
    match parseDigits r0 with
    | none => none
    | some (a, r1) =>
      match parseOptLen r1 with
      | none => none
      | some (b, r2) =>
        match r2 with
        | ' ' :: '+' :: r3 =>
          match parseDigits r3 with
          | none => none
          | some (c, r4) =>
            match parseOptLen r4 with
            | none => none
            | some (d, r5) =>
              match r5 with
              | ' ' :: '@' :: '@' :: _ => some (a, b, c, d)
              | _ => none
        | _ => none
  | _ => none

/-- Strip the `a/` or `b/` path prefix of a git-style file header
(spec section 6: header lines `--- a/path`, `+++ b/path`). -/
def stripAB : List Char → List Char
  | 'a' :: '/' :: rest => rest
  | 'b' :: '/' :: rest => rest
  | cs => cs

/-- State of the hunk currently being read: the running source and target
line counters, the declared numbers of source and target lines still
expected, whether the hunk is in marker-only fallback mode (malformed
header, spec section 4.1 error handling), and its lines so far (reversed). -/
structure HunkState where
  srcStart : Nat
  tgtStart : Nat
  srcNo : Nat
  tgtNo : Nat
  srcRem : Nat
  tgtRem : Nat
  markerOnly : Bool
  lines : List DiffLine
  deriving DecidableEq, Repr

/-- State of the file section currently being read. -/
structure FileState where
  source_file : String
  target_file : String
  is_rename : Bool
  hunks : List Hunk
  cur : Option HunkState
  deriving DecidableEq, Repr

/-- Whole reader state: finished files (reversed), a pending `---` path
waiting for its `+++` partner, a pending `rename from` path, and the open
file section. -/
structure PState where
  files : List PatchedFile
  pendingSource : Option String
  renameFrom : Option String
  curFile : Option FileState
  deriving DecidableEq, Repr

/-- Close the open hunk of a file section, if any. -/
def closeHunk (fs : FileState) : FileState :=
  match fs.cur with
  | none => fs
  | some h => { fs with hunks := fs.hunks ++ [⟨h.srcStart, h.tgtStart, h.lines.reverse⟩], cur := none }

/-- Close the open file section, if any, appending it to the finished files. -/
def closeFile (st : PState) : PState :=
  match st.curFile with
  | none => st
  | some fs0 =>
    let fs := closeHunk fs0
    { st with
      files := ⟨fs.source_file, fs.target_file, fs.is_rename, fs.hunks⟩ :: st.files,
      curFile := none }

/-- Modelled from the spec (section 4.1): classify one body line of a hunk
whose header parsed, by its leading marker character; added lines advance the
target counter, removed lines the source counter, anything else is context
and advances both. -/
def classifyNumbered (h : HunkState) (line : List Char) : HunkState :=
  match line with
  | '+' :: cs =>
    { h with tgtNo := h.tgtNo + 1, tgtRem := h.tgtRem - 1,
             lines := ⟨LineType.added, String.mk cs, none, some h.tgtNo⟩ :: h.lines }
  | '-' :: cs =>
    { h with srcNo := h.srcNo + 1, srcRem := h.srcRem - 1,
             lines := ⟨LineType.removed, String.mk cs, some h.srcNo, none⟩ :: h.lines }
  | ' ' :: cs =>
    { h with srcNo := h.srcNo + 1, tgtNo := h.tgtNo + 1,
             srcRem := h.srcRem - 1, tgtRem := h.tgtRem - 1,
             lines := ⟨LineType.context, String.mk cs, some h.srcNo, some h.tgtNo⟩ :: h.lines }
  | cs =>
    { h with srcNo := h.srcNo + 1, tgtNo := h.tgtNo + 1,
             srcRem := h.srcRem - 1, tgtRem := h.tgtRem - 1,
             lines := ⟨LineType.context, String.mk cs, some h.srcNo, some h.tgtNo⟩ :: h.lines }

/-- Modelled from the spec (section 4.1 error handling, "lines still
individually classified by marker"): classify a line of a marker-only
fallback section; no line numbers are recoverable. -/
def mkMarkerLine : List Char → DiffLine
  | '+' :: cs => ⟨LineType.added, String.mk cs, none, none⟩
  | '-' :: cs => ⟨LineType.removed, String.mk cs, none, none⟩
  | ' ' :: cs => ⟨LineType.context, String.mk cs, none, none⟩
  | cs => ⟨LineType.context, String.mk cs, none, none⟩

/-- A numbered hunk still expects body lines. -/
def hunkOpen (h : HunkState) : Bool :=
  !h.markerOnly && (h.srcRem != 0 || h.tgtRem != 0)

/-- Modelled from the spec (section 4.1): handle one line that is not the
body of an open numbered hunk: file header pairs, rename markers, hunk
headers (falling back to a marker-only section on a malformed header), bodies
of marker-only sections, and junk, which is skipped — the reader never
fails. -/
def headerStep (st : PState) (line : List Char) : PState :=
  if listPref ("rename from ".data) line then
    { st with renameFrom := some (String.mk (line.drop 12)) }
  else if listPref ("rename to ".data) line then
    match st.renameFrom with
    | some f =>
      let st1 := closeFile st
      { st1 with renameFrom := none,
                 curFile := some ⟨f, String.mk (line.drop 10), true, [], none⟩ }
    | none => st
  else if listPref ("--- ".data) line then
    { st with pendingSource := some (String.mk (stripAB (line.drop 4))) }
  else if listPref ("+++ ".data) line then
    match st.pendingSource with
    | some src =>
      let tgt := String.mk (stripAB (line.drop 4))
      match st.curFile with
      | some fs =>
        if fs.is_rename && fs.hunks.isEmpty && fs.cur.isNone then
          { st with pendingSource := none }
        else
          let st1 := closeFile st
          { st1 with pendingSource := none, curFile := some ⟨src, tgt, false, [], none⟩ }
      | none =>
        { st with pendingSource := none, curFile := some ⟨src, tgt, false, [], none⟩ }
    | none => st
  else if listPref ("@@".data) line then
    match st.curFile with
    | none => st
    | some fs =>
      let fs1 := closeHunk fs
      match parseHunkHeader line with
      | some (a, b, c, d) =>
        { st with curFile := some { fs1 with cur := some ⟨a, c, a, c, b, d, false, []⟩ } }
      | none =>
        { st with curFile := some { fs1 with cur := some ⟨0, 0, 0, 0, 0, 0, true, []⟩ } }
  else
    match st.curFile with
    | some fs =>
      match fs.cur with
      | some h =>
        if h.markerOnly &&
            (listPref ("+".data) line || listPref ("-".data) line || listPref (" ".data) line) then
          { st with curFile := some { fs with cur := some { h with lines := mkMarkerLine line :: h.lines } } }
        else st
      | none => st
    | none => st

/-- One step of the reader: body lines of an open numbered hunk are
classified by marker; everything else is handled by `headerStep`. -/
def stepLine (st : PState) (line : List Char) : PState :=
  match st.curFile with
  | some fs =>
    match fs.cur with
    | some h =>
      if hunkOpen h then
        { st with curFile := some { fs with cur := some (classifyNumbered h line) } }
      else headerStep st line
    | none => headerStep st line
  | none => headerStep st line

/-- Modelled from the spec (section 4.1, parse): split the diff text into
per-file sections and hunks, classifying every body line; stands in for the
`unidiff.PatchSet` constructor, which is not part of the repository sources.
Total by construction: malformed sections degrade to marker-only
classification, junk lines are skipped. -/
def parsePatchSet (text : String) : List PatchedFile :=
  (closeFile ((splitNL [] text.data).foldl stepLine ⟨[], none, none, none⟩)).files.reverse

/-! ### The query layer, embedded from `src/pr_agent/diff_parser.py` -/

/-- `s.rstrip("\n")` of Python: remove trailing newline characters. -/
def rstripNL (s : String) : String :=
  String.mk ((s.data.reverse.dropWhile (fun c => c == '\n')).reverse)

/-- `s.rstrip()` of Python: remove trailing whitespace. -/
def pyRstrip (s : String) : String :=
  String.mk ((s.data.reverse.dropWhile Char.isWhitespace).reverse)

/-- The Python expression `a or b or 0` on optional integers, with Python
truthiness: `None` and `0` are falsy (source line 256,
`line.target_line_no or line.source_line_no or 0`). -/
def pyOrNat : Option Nat → Option Nat → Nat
  | some n, b => if n = 0 then (match b with | some m => m | none => 0) else n
  | none, some m => m
  | none, none => 0

/-- The `change_type` string computed at source lines 248-252. -/
def changeTypeStr (l : DiffLine) : String :=
  match l.line_type with
  | LineType.added => "added"
  | LineType.removed => "removed"
  | LineType.context => "context"

/-- `LineChange` dataclass of `diff_parser.py`. -/
structure LineChange where
  file_path : String
  line_number : Nat
  position : Nat
  line_content : String
  change_type : String
  target_line_no : Option Nat
  source_line_no : Option Nat
  deriving DecidableEq, Repr

/-- `FileAnalysis` dataclass of `diff_parser.py`. -/
structure FileAnalysis where
  file_path : String
  additions : Nat
  deletions : Nat
  is_new_file : Bool
  is_deleted_file : Bool
  is_renamed : Bool
  old_path : Option String
  line_changes : List LineChange
  deriving DecidableEq, Repr

/-- The dict returned by `get_statistics` (source lines 157-166). -/
structure Statistics where
  files : Nat
  additions : Nat
  deletions : Nat
  deriving DecidableEq, Repr

/-- `DiffParser` of `diff_parser.py`: the stored diff text and the
`patch_set` attribute (`None` when the text is empty or whitespace). -/
structure DiffParser where
  diff_text : String
  patch_set : Option (List PatchedFile)
  deriving DecidableEq, Repr

/-- `DiffParser.__init__` (source lines 49-57):
`self.patch_set = PatchSet(diff_text) if diff_text.strip() else None`. -/
def DiffParser.init (diff_text : String) : DiffParser :=
  ⟨diff_text,
   if diff_text.data.all Char.isWhitespace then none else some (parsePatchSet diff_text)⟩

/-- Python truthiness of the `patch_set` attribute: `not self.patch_set` is
true when it is `None` or an empty list. -/
def patchFalsy : Option (List PatchedFile) → Bool
  | none => true
  | some ps => ps.isEmpty

/-- The list of files of a non-`None` patch set (empty for `None`). -/
def patchFiles : Option (List PatchedFile) → List PatchedFile
  | none => []
  | some ps => ps

/-- `DiffParser.get_files` (source lines 59-64). -/
def DiffParser.get_files (p : DiffParser) : List String :=
  if patchFalsy p.patch_set then []
  else (patchFiles p.patch_set).map PatchedFile.path

/-- The body of the loop of `_analyze_file` (source lines 245-263): emit one
`LineChange` per line with the running per-file position counter. -/
def numberLines (fp : String) : Nat → List DiffLine → List LineChange
  | _, [] => []
  | pos, l :: ls =>
    { file_path := fp,
      line_number := pyOrNat l.target_line_no l.source_line_no,
      position := pos + 1,
      line_content := rstripNL l.value,
      change_type := changeTypeStr l,
      target_line_no := l.target_line_no,
      source_line_no := l.source_line_no } :: numberLines fp (pos + 1) ls

/-- `DiffParser._analyze_file` (source lines 240-274). -/
def analyze_file (pf : PatchedFile) : FileAnalysis :=
  { file_path := pf.path,
    additions := pf.added,
    deletions := pf.removed,
    is_new_file := pf.is_added_file,
    is_deleted_file := pf.is_removed_file,
    is_renamed := pf.is_rename,
    old_path := if pf.is_rename then some pf.source_file else none,
    line_changes := numberLines pf.path 0 pf.allLines }

/-- `DiffParser._find_file` (source lines 230-238). -/
def DiffParser.find_file (p : DiffParser) (file_path : String) : Option PatchedFile :=
  if patchFalsy p.patch_set then none
  else (patchFiles p.patch_set).find? (fun pf => pf.path == file_path)

/-- `DiffParser.get_file_analysis` (source lines 66-83). -/
def DiffParser.get_file_analysis (p : DiffParser) (file_path : String) : Option FileAnalysis :=
  if patchFalsy p.patch_set then none
  else
    match p.find_file file_path with
    | none => none
    | some pf => some (analyze_file pf)

/-- `DiffParser.get_all_file_analyses` (source lines 85-95). -/
def DiffParser.get_all_file_analyses (p : DiffParser) : List FileAnalysis :=
  if patchFalsy p.patch_set then []
  else (patchFiles p.patch_set).map analyze_file

/-- The inner loop of `get_added_lines_with_positions` (source lines
112-120): the per-file position counter, keeping only added lines as
(position, target_line_no, content) tuples. -/
def addedOf : Nat → List DiffLine → List (Nat × Option Nat × String)
  | _, [] => []
  | pos, l :: ls =>
    if l.is_added then (pos + 1, l.target_line_no, rstripNL l.value) :: addedOf (pos + 1) ls
    else addedOf (pos + 1) ls

/-- Insertion into a Python dict modelled as an association list: an
existing key keeps its place and gets the new value, a new key is appended. -/
def dictInsert (k : String) (v : α) : List (String × α) → List (String × α)
  | [] => [(k, v)]
  | (k1, v1) :: rest => if k1 == k then (k1, v) :: rest else (k1, v1) :: dictInsert k v rest

/-- Lookup in a Python dict modelled as an association list. -/
def dictLookup (k : String) : List (String × α) → Option α
  | [] => none
  | (k1, v1) :: rest => if k1 == k then some v1 else dictLookup k rest

/-- The file loop of `get_added_lines_with_positions` (source lines
107-123): `result[file_path] = added_lines` only when `added_lines` is
nonempty. -/
def buildAdded : List PatchedFile → List (String × List (Nat × Option Nat × String)) →
    List (String × List (Nat × Option Nat × String))
  | [], res => res
  | pf :: ps, res =>
    let al := addedOf 0 pf.allLines
    buildAdded ps (if al.isEmpty then res else dictInsert pf.path al res)

/-- `DiffParser.get_added_lines_with_positions` (source lines 97-125). -/
def DiffParser.get_added_lines_with_positions (p : DiffParser) :
    List (String × List (Nat × Option Nat × String)) :=
  if patchFalsy p.patch_set then []
  else buildAdded (patchFiles p.patch_set) []

/-- Absolute difference of natural numbers
(`abs(line.target_line_no - line_number)` at source line 150). -/
def absDiff (a b : Nat) : Nat := if a ≤ b then b - a else a - b

/-- Python truthiness of `line.target_line_no` (source line 149): `None`
and `0` are falsy. -/
def tgtTruthy : Option Nat → Bool
  | none => false
  | some n => n != 0

/-- The formatted line `f"{prefix} {line.value.rstrip()}"` of
`get_modified_lines_context` (source lines 152-153). -/
def ctxLine (l : DiffLine) : String :=
  (if l.is_added then "+" else if l.is_removed then "-" else " ") ++ " " ++ pyRstrip l.value

/-- The line loop of `get_modified_lines_context` (source lines 145-153). -/
def gatherCtx (line_number context_lines : Nat) : List DiffLine → List String
  | [] => []
  | l :: ls =>
    if tgtTruthy l.target_line_no &&
        decide (absDiff (l.target_line_no.getD 0) line_number ≤ context_lines) then
      ctxLine l :: gatherCtx line_number context_lines ls
    else gatherCtx line_number context_lines ls

/-- `DiffParser.get_modified_lines_context` (source lines 127-155). -/
def DiffParser.get_modified_lines_context (p : DiffParser) (file_path : String)
    (line_number : Nat) (context_lines : Nat := 3) : Option String :=
  match p.find_file file_path with
  | none => none
  | some pf =>
    let target_lines := gatherCtx line_number context_lines pf.allLines
    if target_lines.isEmpty then none else some (String.intercalate "\n" target_lines)

/-- `DiffParser.get_statistics` (source lines 157-166). -/
def DiffParser.get_statistics (p : DiffParser) : Statistics :=
  if patchFalsy p.patch_set then ⟨0, 0, 0⟩
  else
    ⟨(patchFiles p.patch_set).length,
     ((patchFiles p.patch_set).map PatchedFile.added).sum,
     ((patchFiles p.patch_set).map PatchedFile.removed).sum⟩

/-! ### Declarative views used to state the claims -/

/-- The added-line tuples of a file as seen through `_analyze_file`:
the added-kind `LineChange`s of the analysis, projected to
(position, target line number, content), in position order. -/
def addedView (pf : PatchedFile) : List (Nat × Option Nat × String) :=
  ((analyze_file pf).line_changes.filter (fun lc => lc.change_type == "added")).map
    (fun lc => (lc.position, lc.target_line_no, lc.line_content))

/-- Follows the words of claim C8: the DiffLines of the file whose target
line number differs from the given line number by at most the window, each
formatted with its kind marker, joined in position order; absent when the
file is not in the diff or no line matches. -/
def lineContextClaim (p : DiffParser) (file_path : String)
    (line_number : Nat) (context_lines : Nat) : Option String :=
  match p.find_file file_path with
  | none => none
  | some pf =>
    let tls := pf.allLines.filterMap (fun l =>
      match l.target_line_no with
      | some tl => if absDiff tl line_number ≤ context_lines then some (ctxLine l) else none
      | none => none)
    if tls.isEmpty then none else some (String.intercalate "\n" tls)

/-- The amended form of claim C8: as `lineContextClaim`, but a line is only
selected when its target line number is also nonzero — Python truthiness of
`line.target_line_no` at source line 149 treats the value 0 like `None`. -/
def lineContextFixed (p : DiffParser) (file_path : String)
    (line_number : Nat) (context_lines : Nat) : Option String :=
  match p.find_file file_path with
  | none => none
  | some pf =>
    let tls := pf.allLines.filterMap (fun l =>
      match l.target_line_no with
      | some tl =>
        if tl ≠ 0 ∧ absDiff tl line_number ≤ context_lines then some (ctxLine l) else none
      | none => none)
    if tls.isEmpty then none else some (String.intercalate "\n" tls)

/-- The keys of a dict modelled as an association list. -/
def dictKeys (m : List (String × α)) : List String := m.map Prod.fst

/-! ### Concrete diff texts used by the scenario theorems, counterexamples
and witnesses -/

/-- Claim C1 scenario: two files, the second with a corrupted hunk header
(`XXX` is not a line count). -/
def c1Text : String :=
  "diff --git a/file1.py b/file1.py\n--- a/file1.py\n+++ b/file1.py\n@@ -1,2 +1,3 @@\n a\n+b\n c\ndiff --git a/file2.py b/file2.py\n--- a/file2.py\n+++ b/file2.py\n@@ -1,XXX +1,2 @@\n d\n+e\n"

/-- A well-formed one-file diff (the sample of the module docstring and
`tests/test_basic.py`): two added lines, one removed line, one further
added empty line. -/
def sampleText : String :=
  "diff --git a/example.py b/example.py\nindex 1234567..abcdefg 100644\n--- a/example.py\n+++ b/example.py\n@@ -1,4 +1,6 @@\n def hello_world():\n-    print(hello)\n+    print(hello, world)\n+    return greeting\n+\n def main():\n     hello_world()\n"

/-- Claim C7 scenario: a pure rename with no line changes. -/
def c7Text : String :=
  "diff --git a/old.py b/new.py\nsimilarity index 100%\nrename from old.py\nrename to new.py\n"

/-- Counterexample input for claim C3: two file sections with the same path
`f`; the first has one added line, the second has none. -/
def c3Text : String :=
  "--- a/f\n+++ b/f\n@@ -1,1 +1,2 @@\n x\n+y\n--- a/f\n+++ b/f\n@@ -1,1 +1,1 @@\n z"

/-- Counterexample input for claim C9: two file sections with the same
path `f`. -/
def c9Text : String :=
  "--- a/f\n+++ b/f\n@@ -1,1 +1,2 @@\n x\n+y\n--- a/f\n+++ b/f\n@@ -3,1 +3,2 @@\n z\n+w"

/-- Counterexample input for claim C10: two file sections with the same path
`g`, both with added lines at different target line numbers. -/
def c10Text : String :=
  "--- a/g\n+++ b/g\n@@ -1,1 +1,2 @@\n x\n+y\n--- a/g\n+++ b/g\n@@ -5,1 +5,2 @@\n q\n+r"

/-- Counterexample input for claim C8: the hunk header declares target start
0, so the single context line has target line number 0. -/
def c8Text : String := "--- a/f\n+++ b/f\n@@ -1,1 +0,1 @@\n x"

/-- Witness input for claim C6: whitespace-only text. -/
def c6Text : String := " \n\t  "

/-! ### Helper lemmas -/

theorem numberLines_length (fp : String) (ls : List DiffLine) :
    ∀ pos, (numberLines fp pos ls).length = ls.length := by
  induction ls with
  | nil => intro pos; rfl
  | cons l ls ih => intro pos; simp [numberLines, ih]

theorem numberLines_map_position (fp : String) (ls : List DiffLine) :
    ∀ pos, (numberLines fp pos ls).map (fun lc => lc.position) = List.range' (pos + 1) ls.length := by
  induction ls with
  | nil => intro pos; rfl
  | cons l ls ih =>
    intro pos
    simp [numberLines, List.range'_succ, ih, Nat.add_assoc, Nat.add_comm 1]

theorem changeType_added_eq (l : DiffLine) :
    (changeTypeStr l == "added") = l.is_added := by
  cases l with
  | mk lt v s t => cases lt <;> rfl

theorem changeType_removed_eq (l : DiffLine) :
    (changeTypeStr l == "removed") = l.is_removed := by
  cases l with
  | mk lt v s t => cases lt <;> rfl

theorem numberLines_count_added (fp : String) (ls : List DiffLine) :
    ∀ pos, ((numberLines fp pos ls).filter (fun lc => lc.change_type == "added")).length
      = (ls.filter DiffLine.is_added).length := by
  induction ls with
  | nil => intro pos; rfl
  | cons l ls ih =>
    intro pos
    simp only [numberLines, List.filter_cons, changeType_added_eq]
    cases h : l.is_added <;> simp [h, ih]

theorem numberLines_count_removed (fp : String) (ls : List DiffLine) :
    ∀ pos, ((numberLines fp pos ls).filter (fun lc => lc.change_type == "removed")).length
      = (ls.filter DiffLine.is_removed).length := by
  induction ls with
  | nil => intro pos; rfl
  | cons l ls ih =>
    intro pos
    simp only [numberLines, List.filter_cons, changeType_removed_eq]
    cases h : l.is_removed <;> simp [h, ih]

theorem sum_hunk_added (hs : List Hunk) :
    (hs.map Hunk.added).sum = (((hs.map Hunk.lines).flatten).filter DiffLine.is_added).length := by
  induction hs with
  | nil => rfl
  | cons h hs ih => simp [Hunk.added, List.filter_append, ih]

theorem sum_hunk_removed (hs : List Hunk) :
    (hs.map Hunk.removed).sum = (((hs.map Hunk.lines).flatten).filter DiffLine.is_removed).length := by
  induction hs with
  | nil => rfl
  | cons h hs ih => simp [Hunk.removed, List.filter_append, ih]

theorem analyze_file_additions (pf : PatchedFile) :
    (analyze_file pf).additions
      = ((analyze_file pf).line_changes.filter (fun lc => lc.change_type == "added")).length := by
  show pf.added = ((numberLines pf.path 0 pf.allLines).filter _).length
  rw [numberLines_count_added]
  exact sum_hunk_added pf.hunks

theorem analyze_file_deletions (pf : PatchedFile) :
    (analyze_file pf).deletions
      = ((analyze_file pf).line_changes.filter (fun lc => lc.change_type == "removed")).length := by
  show pf.removed = ((numberLines pf.path 0 pf.allLines).filter _).length
  rw [numberLines_count_removed]
  exact sum_hunk_removed pf.hunks

theorem addedOf_eq (fp : String) (ls : List DiffLine) :
    ∀ pos, addedOf pos ls
      = ((numberLines fp pos ls).filter (fun lc => lc.change_type == "added")).map
          (fun lc => (lc.position, lc.target_line_no, lc.line_content)) := by
  induction ls with
  | nil => intro pos; rfl
  | cons l ls ih =>
    intro pos
    simp only [addedOf, numberLines, List.filter_cons, changeType_added_eq]
    cases h : l.is_added <;> simp [h, ih]

theorem addedView_eq (pf : PatchedFile) : addedView pf = addedOf 0 pf.allLines := by
  rw [addedView, addedOf_eq pf.path]
  rfl

theorem patchFalsy_files (o : Option (List PatchedFile)) (h : patchFalsy o = true) :
    patchFiles o = [] := by
  cases o with
  | none => rfl
  | some ps => simpa [patchFalsy, List.isEmpty_iff] using h

theorem dictLookup_insert (k k1 : String) (v : α) (m : List (String × α)) :
    dictLookup k (dictInsert k1 v m) = if k1 == k then some v else dictLookup k m := by
  induction m with
  | nil => simp [dictInsert, dictLookup]
  | cons e m ih =>
    obtain ⟨a, b⟩ := e
    by_cases h1 : a = k1
    · subst h1
      by_cases h2 : a = k
      · subst h2; simp [dictInsert, dictLookup]
      · simp [dictInsert, dictLookup, h2]
    · by_cases h2 : a = k
      · subst h2
        have hk : ¬ (k1 = a) := fun he => h1 he.symm
        simp [dictInsert, dictLookup, h1, hk]
      · simp [dictInsert, dictLookup, h1, h2, ih]

theorem dictInsert_not_mem (k : String) (v : α) (m : List (String × α))
    (h : k ∉ dictKeys m) : dictInsert k v m = m ++ [(k, v)] := by
  induction m with
  | nil => rfl
  | cons e m ih =>
    obtain ⟨a, b⟩ := e
    have ha : ¬ (a = k) := by
      intro he; exact h (by simp [dictKeys, he])
    have hm : k ∉ dictKeys m := by
      intro hk; exact h (by simp [dictKeys] at hk ⊢; exact Or.inr hk)
    simp [dictInsert, ha, ih hm]

theorem buildAdded_lookup_preserve (fp : String) :
    ∀ (ps : List PatchedFile) (res : List (String × List (Nat × Option Nat × String))),
    (∀ f ∈ ps, ¬ f.path = fp) →
    dictLookup fp (buildAdded ps res) = dictLookup fp res := by
  intro ps
  induction ps with
  | nil => intro res _; rfl
  | cons f ps ih =>
    intro res h
    have hf : ¬ f.path = fp := h f (by simp)
    have hps : ∀ g ∈ ps, ¬ g.path = fp := fun g hg => h g (by simp [hg])
    simp only [buildAdded]
    cases he : (addedOf 0 f.allLines).isEmpty with
    | true => simpa [he] using ih res hps
    | false =>
      rw [if_neg (by simp [he])]
      rw [ih _ hps, dictLookup_insert]
      simp [hf]

theorem buildAdded_lookup (fp : String) :
    ∀ (ps : List PatchedFile) (res : List (String × List (Nat × Option Nat × String)))
      (pf : PatchedFile),
    ps.find? (fun f => f.path == fp) = some pf →
    (ps.filter (fun f => f.path == fp)).length = 1 →
    ¬ (addedOf 0 pf.allLines) = [] →
    dictLookup fp (buildAdded ps res) = some (addedOf 0 pf.allLines) := by
  intro ps
  induction ps with
  | nil => intro res pf hfind _ _; simp [List.find?] at hfind
  | cons f ps ih =>
    intro res pf hfind huniq hne
    cases hp : (f.path == fp) with
    | true =>
      have hpath : f.path = fp := by simpa using hp
      have hpf : pf = f := by
        simp only [List.find?_cons_of_pos, hp] at hfind
        exact (Option.some.injEq _ _).mp hfind.symm
      subst hpf
      have hrest : ∀ g ∈ ps, ¬ g.path = fp := by
        simp only [List.filter_cons_of_pos, hp, List.length_cons] at huniq
        have hnil : ps.filter (fun f => f.path == fp) = [] :=
          List.length_eq_zero.mp (by omega)
        intro g hg hgp
        have hmem : g ∈ ps.filter (fun f => f.path == fp) := by
          simp [List.mem_filter, hg, hgp]
        simp_all
      simp only [buildAdded]
      rw [if_neg (by simp [List.isEmpty_iff, hne])]
      rw [buildAdded_lookup_preserve fp ps _ hrest, dictLookup_insert]
      simp [hpath]
    | false =>
      have hfind2 : ps.find? (fun f => f.path == fp) = some pf := by
        simpa [hp] using hfind
      have huniq2 : (ps.filter (fun f => f.path == fp)).length = 1 := by
        simpa [hp] using huniq
      simp only [buildAdded]
      cases he : (addedOf 0 f.allLines).isEmpty with
      | true => simpa [he] using ih res pf hfind2 huniq2 hne
      | false =>
        rw [if_neg (by simp [he])]
        exact ih _ pf hfind2 huniq2 hne

theorem buildAdded_eq_filterMap :
    ∀ (ps : List PatchedFile) (res : List (String × List (Nat × Option Nat × String))),
    (ps.map PatchedFile.path).Nodup →
    (∀ pf ∈ ps, pf.path ∉ dictKeys res) →
    buildAdded ps res = res ++ ps.filterMap (fun pf =>
      if (addedOf 0 pf.allLines).isEmpty then none
      else some (pf.path, addedOf 0 pf.allLines)) := by
  intro ps
  induction ps with
  | nil => intro res _ _; simp [buildAdded]
  | cons pf ps ih =>
    intro res hnd hkeys
    have hnd2 : (ps.map PatchedFile.path).Nodup := (List.nodup_cons.mp (by simpa using hnd)).2
    have hhead : pf.path ∉ ps.map PatchedFile.path := (List.nodup_cons.mp (by simpa using hnd)).1
    simp only [buildAdded, List.filterMap_cons]
    cases he : (addedOf 0 pf.allLines).isEmpty with
    | true =>
      simp only [he, if_pos rfl]
      exact ih res hnd2 (fun g hg => hkeys g (by simp [hg]))
    | false =>
      rw [if_neg (by simp [he]), if_neg (by simp [he])]
      rw [dictInsert_not_mem _ _ _ (hkeys pf (by simp))]
      rw [ih (res ++ [(pf.path, addedOf 0 pf.allLines)]) hnd2 ?keys]
      · rw [List.append_assoc]; rfl
      case keys =>
        intro g hg
        simp only [dictKeys, List.map_append, List.mem_append]
        intro hcon
        cases hcon with
        | inl h => exact hkeys g (by simp [hg]) h
        | inr h =>
          have : g.path = pf.path := by simpa [dictKeys] using h
          exact hhead (this ▸ List.mem_map_of_mem PatchedFile.path hg)

theorem gatherCtx_eq (ln w : Nat) :
    ∀ ls : List DiffLine,
    gatherCtx ln w ls = ls.filterMap (fun l =>
      match l.target_line_no with
      | some tl => if tl ≠ 0 ∧ absDiff tl ln ≤ w then some (ctxLine l) else none
      | none => none) := by
  intro ls
  induction ls with
  | nil => rfl
  | cons l ls ih =>
    simp only [gatherCtx, List.filterMap_cons]
    cases hl : l.target_line_no with
    | none => simp [tgtTruthy, hl, ih]
    | some tl =>
      by_cases h0 : tl = 0
      · subst h0; simp [tgtTruthy, hl, ih]
      · by_cases hw : absDiff tl ln ≤ w
        · simp [tgtTruthy, hl, h0, hw, ih]
        · simp [tgtTruthy, hl, h0, hw, ih]

/-! ### Claim theorems -/

/-- Claim C1: parsing is total — in this embedding `DiffParser.init`,
`parsePatchSet` and every query are total functions, so no input can raise —
and a corrupt file section degrades to best-effort marker-only
classification.  Concretely, for a diff of two files whose second hunk
header is corrupted (`@@ -1,XXX +1,2 @@`), parsing does not abort, both file
paths appear in `get_files`, the first file parses fully and correctly, and
the second file falls back to marker-only classification: its lines carry
the change kinds read from their markers but no recoverable line numbers. -/
theorem C1_corrupt_section_best_effort :
    (DiffParser.init c1Text).get_files = ["file1.py", "file2.py"] ∧
    (DiffParser.init c1Text).get_file_analysis "file1.py" =
      some ⟨"file1.py", 1, 0, false, false, false, none,
        [⟨"file1.py", 1, 1, "a", "context", some 1, some 1⟩,
         ⟨"file1.py", 2, 2, "b", "added", some 2, none⟩,
         ⟨"file1.py", 3, 3, "c", "context", some 3, some 2⟩]⟩ ∧
    (DiffParser.init c1Text).get_file_analysis "file2.py" =
      some ⟨"file2.py", 1, 0, false, false, false, none,
        [⟨"file2.py", 0, 1, "d", "context", none, none⟩,
         ⟨"file2.py", 0, 2, "e", "added", none, none⟩]⟩ ∧
    (DiffParser.init c1Text).get_statistics = ⟨2, 2, 0⟩ :=
  ⟨rfl, rfl, rfl, rfl⟩

/-- Claim C7: a diff renaming `old.py` to `new.py` with no line changes
yields a FileAnalysis with `is_renamed = true`, `old_path = "old.py"` and
zero additions and deletions. -/
theorem C7_rename_scenario :
    (DiffParser.init c7Text).get_file_analysis "new.py" =
      some ⟨"new.py", 0, 0, false, false, true, some "old.py", []⟩ :=
  rfl

/-- Claim C6: parsing the empty string or any whitespace-only text yields a
diff with zero files (empty `get_files` and `get_all_file_analyses`) and
all-zero statistics; every operation involved is total, so no error can be
raised. -/
theorem C6_empty_input (t : String) (hws : ∀ c ∈ t.data, c.isWhitespace = true) :
    (DiffParser.init t).get_files = [] ∧
    (DiffParser.init t).get_all_file_analyses = [] ∧
    (DiffParser.init t).get_statistics = ⟨0, 0, 0⟩ := by
  have hall : t.data.all Char.isWhitespace = true := List.all_eq_true.mpr hws
  have hnone : (DiffParser.init t).patch_set = none := by
    simp [DiffParser.init, hall]
  refine ⟨?_, ?_, ?_⟩ <;>
    simp [DiffParser.get_files, DiffParser.get_all_file_analyses,
          DiffParser.get_statistics, hnone, patchFalsy]

/-- Witness for C6 at the whitespace-only text `c6Text`. -/
theorem C6_empty_input_witness :
    (DiffParser.init c6Text).get_files = [] ∧
    (DiffParser.init c6Text).get_all_file_analyses = [] ∧
    (DiffParser.init c6Text).get_statistics = ⟨0, 0, 0⟩ :=
  C6_empty_input c6Text (by decide)

/-- Claim C4: `get_statistics` returns the number of FileAnalysis entries as
`files`, the sum of the per-file `additions` as `additions`, and the sum of
the per-file `deletions` as `deletions`. -/
theorem C4_statistics_aggregate (t : String) :
    (DiffParser.init t).get_statistics =
      ⟨(DiffParser.init t).get_all_file_analyses.length,
       ((DiffParser.init t).get_all_file_analyses.map (fun fa => fa.additions)).sum,
       ((DiffParser.init t).get_all_file_analyses.map (fun fa => fa.deletions)).sum⟩ := by
  cases h : patchFalsy (DiffParser.init t).patch_set with
  | true => simp [DiffParser.get_statistics, DiffParser.get_all_file_analyses, h]
  | false =>
    simp only [DiffParser.get_statistics, DiffParser.get_all_file_analyses, h,
      Bool.false_eq_true, if_false, List.map_map, List.length_map]
    rfl

/-- Claim C2: in every parsed diff, the positions of the successive
LineChanges of a FileAnalysis are exactly 1, 2, 3, ... — strictly increasing
by exactly 1, starting at 1, continuing across hunk boundaries within the
file; since every FileAnalysis is numbered from 1, the counter resets for
each new file. -/
theorem C2_position_monotonic (t : String) (fa : FileAnalysis)
    (hfa : fa ∈ (DiffParser.init t).get_all_file_analyses) :
    fa.line_changes.map (fun lc => lc.position) = List.range' 1 fa.line_changes.length := by
  unfold DiffParser.get_all_file_analyses at hfa
  cases h : patchFalsy (DiffParser.init t).patch_set with
  | true => simp [h] at hfa
  | false =>
    rw [if_neg (by simp [h])] at hfa
    obtain ⟨pf, _, rfl⟩ := List.mem_map.mp hfa
    show (numberLines pf.path 0 pf.allLines).map _
      = List.range' 1 (numberLines pf.path 0 pf.allLines).length
    rw [numberLines_map_position, numberLines_length]

/-- Witness for C2 on the sample diff: the single FileAnalysis has
positions 1..7. -/
theorem C2_position_monotonic_witness :
    ∃ fa ∈ (DiffParser.init sampleText).get_all_file_analyses,
      fa.line_changes.map (fun lc => lc.position) = List.range' 1 fa.line_changes.length := by
  obtain ⟨fa, hfa⟩ : ∃ fa, (DiffParser.init sampleText).get_all_file_analyses = [fa] := ⟨_, rfl⟩
  exact ⟨fa, by rw [hfa]; exact List.mem_singleton.mpr rfl,
         C2_position_monotonic sampleText fa (by rw [hfa]; exact List.mem_singleton.mpr rfl)⟩

/-- Claim C5: for every FileAnalysis produced by `get_file_analysis` or
`get_all_file_analyses`, `additions` equals the number of its LineChanges
with change kind "added" and `deletions` equals the number with change kind
"removed". -/
theorem C5_count_consistency (t : String) (fa : FileAnalysis)
    (hfa : fa ∈ (DiffParser.init t).get_all_file_analyses ∨
           ∃ fp, (DiffParser.init t).get_file_analysis fp = some fa) :
    fa.additions = (fa.line_changes.filter (fun lc => lc.change_type == "added")).length ∧
    fa.deletions = (fa.line_changes.filter (fun lc => lc.change_type == "removed")).length := by
  have key : ∃ pf : PatchedFile, fa = analyze_file pf := by
    cases hfa with
    | inl hmem =>
      unfold DiffParser.get_all_file_analyses at hmem
      cases h : patchFalsy (DiffParser.init t).patch_set with
      | true => simp [h] at hmem
      | false =>
        rw [if_neg (by simp [h])] at hmem
        obtain ⟨pf, _, hpf⟩ := List.mem_map.mp hmem
        exact ⟨pf, hpf.symm⟩
    | inr hsome =>
      obtain ⟨fp, hfp⟩ := hsome
      unfold DiffParser.get_file_analysis at hfp
      cases h : patchFalsy (DiffParser.init t).patch_set with
      | true => simp [h] at hfp
      | false =>
        rw [if_neg (by simp [h])] at hfp
        cases hf : (DiffParser.init t).find_file fp with
        | none => rw [hf] at hfp; simp at hfp
        | some pf =>
          rw [hf] at hfp
          exact ⟨pf, ((Option.some.injEq _ _).mp hfp).symm⟩
  obtain ⟨pf, rfl⟩ := key
  exact ⟨analyze_file_additions pf, analyze_file_deletions pf⟩

/-- Witness for C5 on the sample diff: its FileAnalysis has 3 additions and
1 deletion, matching the counts of its added and removed LineChanges. -/
theorem C5_count_consistency_witness :
    ((DiffParser.init sampleText).get_file_analysis "example.py").elim False (fun fa =>
      fa.additions = (fa.line_changes.filter (fun lc => lc.change_type == "added")).length ∧
      fa.deletions = (fa.line_changes.filter (fun lc => lc.change_type == "removed")).length) := by
  obtain ⟨fa, hfa⟩ : ∃ fa, (DiffParser.init sampleText).get_file_analysis "example.py" = some fa :=
    ⟨_, rfl⟩
  rw [hfa]
  exact C5_count_consistency sampleText fa (Or.inr ⟨"example.py", hfa⟩)

/-- Counterexample to claim C3 as stated: in the diff `c3Text` the second
parsed file has path "f" and zero added lines, yet "f" is a key of the
mapping returned by `get_added_lines_with_positions` (the key stems from the
first file with the same path), so a file whose changes include zero added
lines is not always absent as a key. -/
theorem C3_zero_added_key_cex :
    (DiffParser.init c3Text).get_all_file_analyses.map (fun fa => (fa.file_path, fa.additions))
      = [("f", 1), ("f", 0)] ∧
    dictLookup "f" ((DiffParser.init c3Text).get_added_lines_with_positions)
      = some [(2, some 2, "y")] :=
  ⟨rfl, rfl⟩

/-- Amended claim C3: provided the parsed file sections have pairwise
distinct paths, the mapping returned by `get_added_lines_with_positions`
has exactly one entry per file with at least one added line — its
added-kind LineChanges projected to (position, target line number, content)
tuples in position order — and files with zero added lines are absent. -/
theorem C3_added_map_amended (t : String)
    (hnd : ((patchFiles (DiffParser.init t).patch_set).map PatchedFile.path).Nodup) :
    (DiffParser.init t).get_added_lines_with_positions =
      (patchFiles (DiffParser.init t).patch_set).filterMap (fun pf =>
        if (addedView pf).isEmpty then none else some (pf.path, addedView pf)) := by
  have hfm : ∀ ps : List PatchedFile,
      ps.filterMap (fun pf =>
        if (addedOf 0 pf.allLines).isEmpty then none
        else some (pf.path, addedOf 0 pf.allLines))
      = ps.filterMap (fun pf =>
        if (addedView pf).isEmpty then none else some (pf.path, addedView pf)) := by
    intro ps
    apply List.filterMap_congr
    intro pf _
    rw [addedView_eq]
  unfold DiffParser.get_added_lines_with_positions
  cases h : patchFalsy (DiffParser.init t).patch_set with
  | true => simp [h, patchFalsy_files _ h]
  | false =>
    rw [if_neg (by simp [h])]
    rw [buildAdded_eq_filterMap (patchFiles (DiffParser.init t).patch_set) [] hnd
      (by intro pf _; simp [dictKeys])]
    rw [List.nil_append, hfm]

/-- Witness for C3 on the sample diff, whose single file path is trivially
duplicate-free. -/
theorem C3_added_map_amended_witness :
    (DiffParser.init sampleText).get_added_lines_with_positions =
      (patchFiles (DiffParser.init sampleText).patch_set).filterMap (fun pf =>
        if (addedView pf).isEmpty then none else some (pf.path, addedView pf)) :=
  C3_added_map_amended sampleText (by decide)

/-- Counterexample to claim C9 as stated: the diff `c9Text` contains two
file sections for the same path "f", and `get_files` returns that path
twice, so a path does not always appear exactly once. -/
theorem C9_files_once_cex :
    (DiffParser.init c9Text).get_files = ["f", "f"] ∧
    ¬ (DiffParser.init c9Text).get_files.Nodup := by
  exact ⟨rfl, by decide⟩

/-- Amended claim C9: `get_files` returns the paths of the parsed file
sections in the order the sections appear in the diff text, one element per
section; consequently each path appears exactly once whenever the sections
have pairwise distinct paths. -/
theorem C9_files_order_amended (t : String) :
    (DiffParser.init t).get_files
      = (patchFiles (DiffParser.init t).patch_set).map PatchedFile.path ∧
    (((patchFiles (DiffParser.init t).patch_set).map PatchedFile.path).Nodup →
      (DiffParser.init t).get_files.Nodup) := by
  have heq : (DiffParser.init t).get_files
      = (patchFiles (DiffParser.init t).patch_set).map PatchedFile.path := by
    unfold DiffParser.get_files
    cases h : patchFalsy (DiffParser.init t).patch_set with
    | true => simp [h, patchFalsy_files _ h]
    | false => rw [if_neg (by simp [h])]
  exact ⟨heq, fun hnd => heq ▸ hnd⟩

/-- Witness for C9 on the sample diff: the path list is exactly the section
paths and is duplicate-free. -/
theorem C9_files_order_amended_witness :
    (DiffParser.init sampleText).get_files
      = (patchFiles (DiffParser.init sampleText).patch_set).map PatchedFile.path ∧
    (DiffParser.init sampleText).get_files.Nodup :=
  ⟨(C9_files_order_amended sampleText).1,
   (C9_files_order_amended sampleText).2 (by decide)⟩

/-- Counterexample to claim C10 as stated: in the diff `c10Text` two file
sections share the path "g"; `get_file_analysis "g"` analyzes the first
section, whose added (position, target line number) pairs are [(2, 2)],
while the mapping of `get_added_lines_with_positions` keeps the value of
the last section with added lines, whose pairs are [(2, 6)] — the two
position bookkeepings disagree. -/
theorem C10_positions_agree_cex :
    ((DiffParser.init c10Text).get_file_analysis "g").map (fun fa =>
        (fa.line_changes.filter (fun lc => lc.change_type == "added")).map
          (fun lc => (lc.position, lc.target_line_no)))
      = some [(2, some 2)] ∧
    (dictLookup "g" ((DiffParser.init c10Text).get_added_lines_with_positions)).map
        (fun al => al.map (fun e => (e.1, e.2.1)))
      = some [(2, some 6)] :=
  ⟨rfl, rfl⟩

/-- Amended claim C10: for a file path carried by exactly one parsed file
section, when that file has at least one added line, the (position, target
line number) pairs of `get_added_lines_with_positions` for the path are
exactly those of the added-kind LineChanges of `get_file_analysis` — the two
independently maintained per-file position counters agree. -/
theorem C10_positions_agree_amended (t fp : String) (fa : FileAnalysis)
    (hget : (DiffParser.init t).get_file_analysis fp = some fa)
    (huniq : ((patchFiles (DiffParser.init t).patch_set).filter
        (fun f => f.path == fp)).length = 1)
    (hadd : ¬ fa.line_changes.filter (fun lc => lc.change_type == "added") = []) :
    (dictLookup fp ((DiffParser.init t).get_added_lines_with_positions)).map
        (fun al => al.map (fun e => (e.1, e.2.1)))
      = some ((fa.line_changes.filter (fun lc => lc.change_type == "added")).map
          (fun lc => (lc.position, lc.target_line_no))) := by
  unfold DiffParser.get_file_analysis at hget
  cases h : patchFalsy (DiffParser.init t).patch_set with
  | true => simp [h] at hget
  | false =>
    rw [if_neg (by simp [h])] at hget
    cases hf : (DiffParser.init t).find_file fp with
    | none => rw [hf] at hget; simp at hget
    | some pf =>
      rw [hf] at hget
      have hfa : fa = analyze_file pf := ((Option.some.injEq _ _).mp hget).symm
      subst hfa
      have hfind : (patchFiles (DiffParser.init t).patch_set).find?
          (fun f => f.path == fp) = some pf := by
        unfold DiffParser.find_file at hf
        rwa [if_neg (by simp [h])] at hf
      have haview : ¬ (addedView pf) = [] := by
        intro hcon
        exact hadd (List.map_eq_nil_iff.mp hcon)
      have hne : ¬ addedOf 0 pf.allLines = [] := by
        rw [← addedView_eq]; exact haview
      unfold DiffParser.get_added_lines_with_positions
      rw [if_neg (by simp [h])]
      rw [buildAdded_lookup fp (patchFiles (DiffParser.init t).patch_set) [] pf hfind huniq hne]
      rw [← addedView_eq]
      unfold addedView
      rw [Option.map_some', List.map_map]
      rfl

/-- Witness for C10 on the sample diff, whose path `example.py` occurs in
exactly one section and has three added lines at positions 3, 4, 5. -/
theorem C10_positions_agree_amended_witness :
    (dictLookup "example.py" ((DiffParser.init sampleText).get_added_lines_with_positions)).map
        (fun al => al.map (fun e => (e.1, e.2.1)))
      = some [(3, some 2), (4, some 3), (5, some 4)] :=
  C10_positions_agree_amended sampleText "example.py"
    ⟨"example.py", 3, 1, false, false, false, none,
     [⟨"example.py", 1, 1, "def hello_world():", "context", some 1, some 1⟩,
      ⟨"example.py", 2, 2, "    print(hello)", "removed", none, some 2⟩,
      ⟨"example.py", 2, 3, "    print(hello, world)", "added", some 2, none⟩,
      ⟨"example.py", 3, 4, "    return greeting", "added", some 3, none⟩,
      ⟨"example.py", 4, 5, "", "added", some 4, none⟩,
      ⟨"example.py", 5, 6, "def main():", "context", some 5, some 3⟩,
      ⟨"example.py", 6, 7, "    hello_world()", "context", some 6, some 4⟩]⟩
    (by decide) (by decide) (by decide)

/-- Counterexample to claim C8 as stated: in the diff `c8Text` the hunk
header declares target start 0, so the single context line has target line
number 0, which is within window 3 of line number 1; the claim-described
result `lineContextClaim` returns that line, but the code returns `none`,
because the Python truthiness test `if line.target_line_no` treats the
value 0 like `None`. -/
theorem C8_line_context_cex :
    (DiffParser.init c8Text).get_modified_lines_context "f" 1 3 = none ∧
    lineContextClaim (DiffParser.init c8Text) "f" 1 3 = some "  x" ∧
    ((DiffParser.init c8Text).get_file_analysis "f").map (fun fa =>
        fa.line_changes.map (fun lc => lc.target_line_no))
      = some [some 0] :=
  ⟨rfl, rfl, rfl⟩

/-- Amended claim C8: for every parsed diff, file path, line number and
window, `get_modified_lines_context` returns the DiffLines whose target
line number is present, nonzero, and differs from the given line number by
at most the window, each prefixed according to its change kind, joined in
position order, and `none` when the file is not in the diff or no line
matches; it never fails, all functions involved being total. -/
theorem C8_line_context_amended (t fp : String) (ln w : Nat) :
    (DiffParser.init t).get_modified_lines_context fp ln w
      = lineContextFixed (DiffParser.init t) fp ln w := by
  unfold DiffParser.get_modified_lines_context lineContextFixed
  cases hf : (DiffParser.init t).find_file fp with
  | none => rfl
  | some pf => simp only [gatherCtx_eq]
